import Mathlib

/-!
# Verification of the mirror-failover feed proxy (src/main.py)

Shallow embedding of the core of the service: the content extractor
(`clean_html`, `extract_image`), the feed normalizer, and the
failover controller (`get_tweets`).  Strings are embedded as `List Char`.
The HTTP layer and the external feed parser are oracles supplied through
an `Env` record, so every theorem quantifies over all possible mirror
behaviours.
-/

/-! ## Content extractor: clean_html

`clean_html` in the source is `re.sub(re.compile('<.*?>'), '', raw).strip()`.
In Python, `.` does not match a newline, so a `<...>` span containing a
newline is not removed; `re.sub` removes the leftmost-shortest matches in a
single left-to-right pass.  `strip()` removes leading and trailing
whitespace (modelled over the ASCII whitespace characters).
-/

/-- Python `str.strip()` whitespace (ASCII range). -/
def isSpace (c : Char) : Bool :=
  c == ' ' || c == '\t' || c == '\n' || c == '\r' || c == '\x0b' || c == '\x0c'

/-- One left-to-right pass of `re.sub('<.*?>', '', s)`, as a state machine.
`none` is the normal state; `some buf` means a `<` has been read and `buf`
holds (reversed) the characters read since, none of which is `>` or `'\n'`.
A `>` closes the match and everything from the `<` is dropped.  A newline
or the end of input means the regex cannot close this `<` (Python `.` does
not match a newline): the `<` and every buffered character are kept, which
agrees with the regex engine retrying at each later position — every inner
`<` in the buffer meets the same newline or end before any `>` (`buf` holds
no `>`), so it fails too and every character up to there is kept. -/
def rmAux : Option (List Char) → List Char → List Char
  | none, [] => []
  | none, c :: rest => if c = '<' then rmAux (some []) rest else c :: rmAux none rest
  | some buf, [] => '<' :: buf.reverse
  | some buf, c :: rest =>
    if c = '>' then rmAux none rest
    else if c = '\n' then ('<' :: buf.reverse) ++ '\n' :: rmAux none rest
    else rmAux (some (c :: buf)) rest

/-- The effect of `re.sub(re.compile('<.*?>'), '', s)` from `clean_html`. -/
def removeTags (l : List Char) : List Char := rmAux none l

/-- Python `str.strip()`. -/
def pyStrip (l : List Char) : List Char :=
  ((l.dropWhile isSpace).reverse.dropWhile isSpace).reverse

/-- `clean_html` from src/main.py: remove `<.*?>` matches, then trim. -/
def clean_html (l : List Char) : List Char := pyStrip (removeTags l)

/-- `true` iff the list contains a `<` with a `>` somewhere after it
(an angle-bracket-delimited span in the sense of the specification). -/
def hasSpan : List Char → Bool
  | [] => false
  | c :: rest => (c == '<' && rest.contains '>') || hasSpan rest

/-- `true` iff the list does not start with a whitespace character. -/
def noLeadWS : List Char → Bool
  | [] => true
  | c :: _ => !isSpace c

/-! Behaviour vectors checked against CPython's `re` on the same inputs. -/
example : clean_html "  <b>hi</b> <i>x ".toList = "hi x".toList := by decide
example : clean_html "<<>>".toList = ">".toList := by decide
example : removeTags "<a\n<b>".toList = "<a\n".toList := by decide
example : clean_html ('<' :: '\n' :: '>' :: []) = ('<' :: '\n' :: '>' :: []) := by decide
example : hasSpan ('<' :: '\n' :: '>' :: []) = true := by decide

/-! ## Content extractor: extract_image

`extract_image` runs `re.search(r'<img[^>]+src="([^">]+)"', description)`;
on a match it takes group 1 and prepends `https:` when the value starts
with `//`; otherwise it returns `None`.

Regex semantics embedded below: `re.search` picks the leftmost position
where the whole pattern matches.  At a position where the text starts with
`<img`, the greedy `[^>]+` (at least one character, none of them `>`, a
newline is allowed) backtracks from the longest extent, so the match uses
the *last* occurrence of the literal `src="` in the `>`-free region after
`<img` at which the group `([^">]+)` — a non-empty run of characters other
than `"` and `>`, closed by `"` — succeeds.  If no occurrence succeeds,
the search moves on to the next `<img`. -/

/-- The literal `src="`. -/
def srcPat : List Char := ['s', 'r', 'c', '=', '"']

/-- Group `([^">]+)"`: read characters up to the first `"` (success) or
`>` / end of input (failure).  The run may be empty here; emptiness is
rejected at the call site. -/
def readValue : List Char → Option (List Char)
  | [] => none
  | c :: rest =>
    if c = '"' then some []
    else if c = '>' then none
    else match readValue rest with
         | some g => some (c :: g)
         | none => none

/-- Scan the text after `<img` for candidate `src="` occurrences, keeping
the group of the last candidate that succeeds (greedy `[^>]+`), and
stopping at the first `>` (the `[^>]+` region ends there).  `first` is
true only at the character directly after `<img`, where a candidate is
forbidden because `[^>]+` must consume at least one character. -/
def scanRegion : List Char → Bool → Option (List Char) → Option (List Char)
  | [], _, best => best
  | c :: rest, first, best =>
    if c = '>' then best
    else
      scanRegion rest false
        (if !first && srcPat.isPrefixOf (c :: rest) then
           match readValue (List.drop 5 (c :: rest)) with
           | some g => if g = [] then best else some g
           | none => best
         else best)

/-- `re.search(r'<img[^>]+src="([^">]+)"', s)`, returning group 1 of the
leftmost successful match. -/
def imgSearch : List Char → Option (List Char)
  | [] => none
  | c :: rest =>
    if ('<' :: 'i' :: 'm' :: 'g' :: []).isPrefixOf (c :: rest) then
      match scanRegion (List.drop 3 rest) true none with
      | some g => some g
      | none => imgSearch rest
    else imgSearch rest

/-- Protocol completion from `extract_image`: prepend `https:` to a
protocol-relative `//...` value. -/
def addScheme (url : List Char) : List Char :=
  if ('/' :: '/' :: []).isPrefixOf url then "https:".toList ++ url else url

/-- `extract_image` from src/main.py. -/
def extract_image (description : List Char) : Option (List Char) :=
  (imgSearch description).map addScheme

/-! Behaviour vectors checked against CPython's `re` on the same inputs. -/
example : extract_image "<img src=\"//example.com/a.jpg\">".toList
    = some "https://example.com/a.jpg".toList := by decide
example : extract_image "no tag here".toList = none := by decide
example : extract_image "<img src=\"http://e/1\"><img src=\"http://e/2\">".toList
    = some "http://e/1".toList := by decide
example : extract_image "<imgsrc=\"x\">".toList = none := by decide
example : extract_image "<img data-src=\"a\" src=\"b\">".toList = some "b".toList := by decide
example : extract_image "<img src=\"a\" src=\"b\">".toList = some "b".toList := by decide
example : extract_image "<img src=\"a>b\">".toList = none := by decide
example : extract_image "<img><img src=\"b\">".toList = some "b".toList := by decide
example : extract_image "<img alt=\"y\">text src=\"evil\"".toList = none := by decide
example : extract_image "<img<img src=\"x\">".toList = some "x".toList := by decide
example : extract_image "<img src=\"//asrc=\">tail".toList
    = some "https://asrc=".toList := by decide
example : extract_image "<img s>rc=\"a\"".toList = none := by decide

/-! ## Data model and environment

`Tweet` and `TweetResponse` are the response models from src/main.py
(the field `instance` is spelled `instanceUrl` because `instance` is a
Lean keyword).  A `RawEntry` is one feedparser entry; each field is
optional because accessing a missing attribute raises in Python
(`'author' in entry` is the only guarded access in the source). -/

structure Tweet where
  id : List Char
  author : List Char
  content : List Char
  image : Option (List Char)
  link : List Char
  published : List Char
deriving DecidableEq

structure TweetResponse where
  instanceUrl : List Char
  data : List Tweet
deriving DecidableEq

structure RawEntry where
  id : Option (List Char)
  author : Option (List Char)
  description : Option (List Char)
  link : Option (List Char)
  published : Option (List Char)
deriving DecidableEq

/-- Result of one `client.get(rss_url, timeout=7.0)`: either some raised
exception (DNS/connect/timeout/TLS and any other transport error), or a
final HTTP status with a body. -/
inductive Resp where
  | exc : Resp
  | ok (status : Nat) (body : List Char) : Resp
deriving DecidableEq

/-- The world outside the controller: `http` maps a request URL to the
response, `parse` maps a body to the entries feedparser recovers.
`parse` returning `none` is the spec's "the parse step cannot produce any
entries structure at all" (see `parsedEntries`). -/
structure Env where
  http : List Char → Resp
  parse : List Char → Option (List RawEntry)

/-- Modelled from the spec: the parse step is performed by the external
`feedparser` library, whose code is not part of src/.  Per the spec, on a
structurally invalid payload the parse step "cannot produce any entries
structure at all" and never partially succeeds; this is modelled by
`Env.parse` returning `none`, in which case the code's `feed.entries` is
the empty list. -/
def parsedEntries (env : Env) (body : List Char) : List RawEntry :=
  (env.parse body).getD []

/-- The static mirror list `NITTER_INSTANCES` from src/main.py. -/
def NITTER_INSTANCES : List (List Char) :=
  ["https://nitter.privacydev.net".toList,
   "https://nitter.poast.org".toList,
   "https://nitter.cz".toList,
   "https://nitter.it".toList,
   "https://nitter.net".toList]

/-! ## Failover controller: get_tweets -/

/-- `path = q.replace('@', '') if type == "user" else f"search?q={q}"`. -/
def buildPath (ty q : List Char) : List Char :=
  if ty = "user".toList then q.filter (fun c => c ≠ '@')
  else "search?q=".toList ++ q

/-- `rss_url = f"{base_url}/{path}/rss"`. -/
def rssUrl (base path : List Char) : List Char :=
  base ++ '/' :: (path ++ "/rss".toList)

/-- One iteration of the entry-building loop: `Tweet(id=entry.id, ...)`.
A missing `id`, `description`, `link` or `published` raises in Python
(yielding `none` here); a missing `author` falls back to the query `q`. -/
def mkTweet (q : List Char) (e : RawEntry) : Option Tweet :=
  match e.id, e.description, e.link, e.published with
  | some i, some d, some l, some p =>
      some { id := i, author := e.author.getD q, content := clean_html d,
             image := extract_image d, link := l, published := p }
  | _, _, _, _ => none

/-- The whole `for entry in feed.entries` loop: every entry must build,
in order; the first failing entry aborts the mirror (the exception is
caught by the surrounding `except`). -/
def normalizeEntries (q : List Char) : List RawEntry → Option (List Tweet)
  | [] => some []
  | e :: es =>
    match mkTweet q e, normalizeEntries q es with
    | some t, some ts => some (t :: ts)
    | _, _ => none

/-- Classified outcome of one mirror attempt (the spec's `FetchOutcome`):
`failure` = exception, non-200 status, or an entry that fails to build;
`empty` = HTTP 200 whose parse yields no entries; `success ts` = HTTP 200
with at least one entry, all normalized. -/
inductive Outcome where
  | failure : Outcome
  | empty : Outcome
  | success (ts : List Tweet) : Outcome
deriving DecidableEq

def Outcome.isSucc : Outcome → Bool
  | success _ => true
  | _ => false

/-- One iteration of the mirror loop of `get_tweets` for `base_url`. -/
def outcome (env : Env) (q path base : List Char) : Outcome :=
  match env.http (rssUrl base path) with
  | Resp.exc => Outcome.failure
  | Resp.ok s body =>
    if s = 200 then
      match parsedEntries env body with
      | [] => Outcome.empty
      | e :: es =>
        match normalizeEntries q (e :: es) with
        | some ts => Outcome.success ts
        | none => Outcome.failure
    else Outcome.failure

/-- The `for base_url in NITTER_INSTANCES` loop: first success returns,
anything else continues; exhaustion raises `HTTPException(503)`. -/
def runMirrors (env : Env) (q path : List Char) : List (List Char) → Except Nat TweetResponse
  | [] => Except.error 503
  | b :: rest =>
    match outcome env q path b with
    | Outcome.success ts => Except.ok { instanceUrl := b, data := ts }
    | _ => runMirrors env q path rest

/-- `get_tweets(q, type)` from src/main.py, over an explicit mirror list. -/
def get_tweets (env : Env) (inst : List (List Char)) (q ty : List Char) :
    Except Nat TweetResponse :=
  runMirrors env q (buildPath ty q) inst

/-- The request URLs issued by `get_tweets`, in order: every loop
iteration performs exactly one GET before its outcome is known. -/
def contactedRun (env : Env) (q path : List Char) : List (List Char) → List (List Char)
  | [] => []
  | b :: rest =>
    rssUrl b path ::
      (match outcome env q path b with
       | Outcome.success _ => []
       | _ => contactedRun env q path rest)

def contacted (env : Env) (inst : List (List Char)) (q ty : List Char) : List (List Char) :=
  contactedRun env q (buildPath ty q) inst

/-! ## Concrete fixtures

Small mirror lists and environments used to instantiate the theorems at
concrete inputs.  All requests below use `q = "u"`, `type = "user"`, so
the request path is `u` and mirror `m`'s URL is `{m}/u/rss`. -/

def mA : List Char := "https://a".toList
def mB : List Char := "https://b".toList
def mC : List Char := "https://c".toList

def urlA : List Char := "https://a/u/rss".toList
def urlB : List Char := "https://b/u/rss".toList

def entryGood : RawEntry :=
  { id := some "1".toList, author := some "alice".toList,
    description := some "<p>hello</p>".toList,
    link := some "https://x/1".toList, published := some "now".toList }

def entryGood2 : RawEntry :=
  { id := some "2".toList, author := some "bob".toList,
    description := some "<p>hi</p> <img src=\"//i/2.png\">".toList,
    link := some "https://x/2".toList, published := some "later".toList }

/-- An entry whose `link` attribute is missing: `entry.link` raises. -/
def entryBadLink : RawEntry :=
  { id := some "3".toList, author := some "eve".toList,
    description := some "text".toList,
    link := none, published := some "now".toList }

/-- An entry whose image source is a relative path (no scheme, not
protocol-relative). -/
def entryRelImg : RawEntry :=
  { id := some "4".toList, author := some "dan".toList,
    description := some "<img src=\"pic.jpg\">hello".toList,
    link := some "https://x/4".toList, published := some "now".toList }

/-- Every request fails at the transport level; nothing parses. -/
def envAllFail : Env :=
  { http := fun _ => Resp.exc, parse := fun _ => none }

/-- Mirror A errors, mirror B answers 200 with one entry (claim C1's
scenario `[A, B, C]`). -/
def envBGood : Env :=
  { http := fun u => if u = urlB then Resp.ok 200 "bodyB".toList else Resp.exc,
    parse := fun b => if b = "bodyB".toList then some [entryGood] else none }

/-- Mirror A answers 200 with an entry whose image src is relative. -/
def envRelImg : Env :=
  { http := fun u => if u = urlA then Resp.ok 200 "bodyR".toList else Resp.exc,
    parse := fun b => if b = "bodyR".toList then some [entryRelImg] else none }

/-- Mirror A answers 201 (a 2xx status) with a perfectly parseable
non-empty body; mirror B answers 200. -/
def env201 : Env :=
  { http := fun u =>
      if u = urlA then Resp.ok 201 "body1".toList
      else if u = urlB then Resp.ok 200 "body2".toList
      else Resp.exc,
    parse := fun b =>
      if b = "body1".toList then some [entryGood]
      else if b = "body2".toList then some [entryGood2] else none }

/-- Mirror A answers 200 but the payload is structurally invalid: the
parse step recovers no entries structure (`parse = none`). -/
def envBadPayload : Env :=
  { http := fun u => if u = urlA then Resp.ok 200 "garbage".toList else Resp.exc,
    parse := fun _ => none }

/-- Mirror A answers 200 with an entry missing its `link`. -/
def envBadEntry : Env :=
  { http := fun u => if u = urlA then Resp.ok 200 "bodyX".toList else Resp.exc,
    parse := fun b => if b = "bodyX".toList then some [entryBadLink] else none }

/-- Same responses as `envBGood` on every URL the request can touch, but
different behaviour on an unrelated URL. -/
def envBGoodPrimed : Env :=
  { http := fun u =>
      if u = "https://other/u/rss".toList then Resp.ok 200 "zzz".toList
      else if u = urlB then Resp.ok 200 "bodyB".toList else Resp.exc,
    parse := fun b => if b = "bodyB".toList then some [entryGood] else none }

/-- The tweet `envBGood` produces from `entryGood` for query `u`. -/
def tweetGood : Tweet :=
  { id := "1".toList, author := "alice".toList, content := "hello".toList,
    image := none, link := "https://x/1".toList, published := "now".toList }

/-- The tweet `env201` produces from `entryGood2` for query `u`. -/
def tweetGood2 : Tweet :=
  { id := "2".toList, author := "bob".toList, content := "hi".toList,
    image := some "https://i/2.png".toList, link := "https://x/2".toList,
    published := "later".toList }

/-- The tweet `envRelImg` produces from `entryRelImg` for query `u`:
its image is the relative path from the entry, passed through unchanged. -/
def tweetRel : Tweet :=
  { id := "4".toList, author := "dan".toList, content := "hello".toList,
    image := some "pic.jpg".toList, link := "https://x/4".toList,
    published := "now".toList }

/-! ## Controller lemmas -/

theorem runMirrors_cons_not_succ {env : Env} {q path b : List Char} {rest : List (List Char)}
    (h : Outcome.isSucc (outcome env q path b) = false) :
    runMirrors env q path (b :: rest) = runMirrors env q path rest := by
  cases ho : outcome env q path b with
  | success ts => rw [ho] at h; simp [Outcome.isSucc] at h
  | failure => simp [runMirrors, ho]
  | empty => simp [runMirrors, ho]

theorem runMirrors_cons_succ {env : Env} {q path b : List Char} {rest : List (List Char)}
    {ts : List Tweet} (h : outcome env q path b = Outcome.success ts) :
    runMirrors env q path (b :: rest) = Except.ok { instanceUrl := b, data := ts } := by
  simp [runMirrors, h]

theorem contactedRun_cons_not_succ {env : Env} {q path b : List Char} {rest : List (List Char)}
    (h : Outcome.isSucc (outcome env q path b) = false) :
    contactedRun env q path (b :: rest) = rssUrl b path :: contactedRun env q path rest := by
  cases ho : outcome env q path b with
  | success ts => rw [ho] at h; simp [Outcome.isSucc] at h
  | failure => simp [contactedRun, ho]
  | empty => simp [contactedRun, ho]

theorem contactedRun_cons_succ {env : Env} {q path b : List Char} {rest : List (List Char)}
    {ts : List Tweet} (h : outcome env q path b = Outcome.success ts) :
    contactedRun env q path (b :: rest) = [rssUrl b path] := by
  simp [contactedRun, h]

theorem normalizeEntries_cons_ne_nil {q : List Char} {e : RawEntry} {es : List RawEntry}
    {ts : List Tweet} (h : normalizeEntries q (e :: es) = some ts) : ts ≠ [] := by
  simp only [normalizeEntries] at h
  cases ht : mkTweet q e with
  | none => rw [ht] at h; simp at h
  | some t =>
    cases hts : normalizeEntries q es with
    | none => rw [ht, hts] at h; simp at h
    | some ts2 => rw [ht, hts] at h; simp at h; simp [← h]

theorem outcome_success_ne_nil {env : Env} {q path b : List Char} {ts : List Tweet}
    (h : outcome env q path b = Outcome.success ts) : ts ≠ [] := by
  unfold outcome at h
  split at h
  · exact absurd h (by simp)
  · split at h
    · split at h
      · exact absurd h (by simp)
      · split at h
        · rename_i hn
          cases h
          exact normalizeEntries_cons_ne_nil hn
        · exact absurd h (by simp)
    · exact absurd h (by simp)

theorem normalizeEntries_mem {q : List Char} {es : List RawEntry} {ts : List Tweet}
    (h : normalizeEntries q es = some ts) {t : Tweet} (ht : t ∈ ts) :
    ∃ e, e ∈ es ∧ mkTweet q e = some t := by
  induction es generalizing ts with
  | nil => simp [normalizeEntries] at h; subst h; simp at ht
  | cons e es ih =>
    simp only [normalizeEntries] at h
    cases he : mkTweet q e with
    | none => rw [he] at h; simp at h
    | some t0 =>
      cases hes : normalizeEntries q es with
      | none => rw [he, hes] at h; simp at h
      | some ts2 =>
        rw [he, hes] at h
        simp at h
        subst h
        rcases List.mem_cons.mp ht with h1 | h2
        · exact ⟨e, List.mem_cons_self e es, h1 ▸ he⟩
        · obtain ⟨e2, he2, hmk⟩ := ih hes h2
          exact ⟨e2, List.mem_cons_of_mem e he2, hmk⟩

theorem normalizeEntries_none {q : List Char} {es : List RawEntry} {e : RawEntry}
    (hmem : e ∈ es) (hbad : mkTweet q e = none) : normalizeEntries q es = none := by
  induction es with
  | nil => simp at hmem
  | cons e0 es ih =>
    rcases List.mem_cons.mp hmem with h1 | h2
    · subst h1; simp [normalizeEntries, hbad]
    · simp [normalizeEntries, ih h2]

theorem mkTweet_none_of_missing {q : List Char} {e : RawEntry}
    (h : e.id = none ∨ e.description = none ∨ e.link = none ∨ e.published = none) :
    mkTweet q e = none := by
  obtain ⟨i, a, d, l, p⟩ := e
  rcases h with h | h | h | h <;> simp_all [mkTweet]

theorem mkTweet_content_image {q : List Char} {e : RawEntry} {t : Tweet}
    (h : mkTweet q e = some t) :
    ∃ d, e.description = some d ∧ t.content = clean_html d ∧ t.image = extract_image d := by
  obtain ⟨i, a, d, l, p⟩ := e
  cases i <;> cases d <;> cases l <;> cases p <;> simp [mkTweet] at h <;>
    exact ⟨_, rfl, by simp [← h], by simp [← h]⟩

theorem get_tweets_cons_not_succ {env : Env} {q ty b : List Char} {rest : List (List Char)}
    (h : Outcome.isSucc (outcome env q (buildPath ty q) b) = false) :
    get_tweets env (b :: rest) q ty = get_tweets env rest q ty := by
  unfold get_tweets
  exact runMirrors_cons_not_succ h

theorem runMirrors_ok {env : Env} {q path : List Char} {inst : List (List Char)}
    {r : TweetResponse} (h : runMirrors env q path inst = Except.ok r) :
    ∃ b, b ∈ inst ∧ r.instanceUrl = b ∧ outcome env q path b = Outcome.success r.data := by
  induction inst with
  | nil => simp [runMirrors] at h
  | cons b rest ih =>
    cases ho : outcome env q path b with
    | success ts =>
      rw [runMirrors_cons_succ ho] at h
      refine ⟨b, List.mem_cons_self b rest, ?_, ?_⟩
      · cases h; rfl
      · cases h; exact ho
    | failure =>
      rw [runMirrors_cons_not_succ (by simp [ho, Outcome.isSucc])] at h
      obtain ⟨b2, hb2, hr, hs⟩ := ih h
      exact ⟨b2, List.mem_cons_of_mem b hb2, hr, hs⟩
    | empty =>
      rw [runMirrors_cons_not_succ (by simp [ho, Outcome.isSucc])] at h
      obtain ⟨b2, hb2, hr, hs⟩ := ih h
      exact ⟨b2, List.mem_cons_of_mem b hb2, hr, hs⟩

/-! ## Claim theorems -/

/-- Claim C1: for every query and every configuration of per-mirror
outcomes, `get_tweets` tries mirrors strictly in the order of the
configured list; at the first mirror whose attempt yields a non-empty
normalized feed it immediately returns that mirror's base URL as
`sourceInstance` together with that mirror's normalized entries,
contacting no later mirror; on an empty feed or any failure it proceeds
to the next mirror in order. -/
theorem claim1_failover_order (env : Env) (q ty : List Char) (ts : List Tweet)
    (pre post : List (List Char)) (b : List Char)
    (hpre : ∀ m ∈ pre, Outcome.isSucc (outcome env q (buildPath ty q) m) = false)
    (hb : outcome env q (buildPath ty q) b = Outcome.success ts) :
    get_tweets env (pre ++ b :: post) q ty = Except.ok { instanceUrl := b, data := ts } ∧
    contacted env (pre ++ b :: post) q ty
      = (pre ++ [b]).map (fun m => rssUrl m (buildPath ty q)) := by
  induction pre with
  | nil =>
    constructor
    · exact runMirrors_cons_succ hb
    · unfold contacted
      rw [List.nil_append, contactedRun_cons_succ hb]
      simp
  | cons m pre ih =>
    have hm := hpre m (List.mem_cons_self m pre)
    have ihres := ih (fun x hx => hpre x (List.mem_cons_of_mem m hx))
    constructor
    · rw [List.cons_append, get_tweets_cons_not_succ hm]
      exact ihres.1
    · unfold contacted
      rw [List.cons_append, contactedRun_cons_not_succ hm]
      have h2 := ihres.2
      unfold contacted at h2
      rw [h2]
      simp

/-- Witness for C1, the specification's `[A, B, C]` scenario: mirror A
fails with a transport error, mirror B returns a feed with one entry; the
result's source instance is B, and C is never contacted (exactly the two
URLs of A and B are requested, in that order). -/
theorem claim1_witness :
    (∀ m ∈ [mA], Outcome.isSucc
        (outcome envBGood "u".toList (buildPath "user".toList "u".toList) m) = false) ∧
    outcome envBGood "u".toList (buildPath "user".toList "u".toList) mB
      = Outcome.success [tweetGood] ∧
    get_tweets envBGood [mA, mB, mC] "u".toList "user".toList
      = Except.ok { instanceUrl := mB, data := [tweetGood] } ∧
    contacted envBGood [mA, mB, mC] "u".toList "user".toList = [urlA, urlB] := by
  have h := claim1_failover_order envBGood "u".toList "user".toList [tweetGood]
    [mA] [mC] mB (by decide) (by decide)
  exact ⟨by decide, by decide, h.1, h.2.trans (by decide)⟩

/-- Claim C2: if every mirror produces a failure, a malformed payload or
an empty feed, `get_tweets` yields exactly the 503 error; it never
returns an empty result, and any successful return is one mirror's fully
normalized feed (every entry of that mirror, in order, via `mkTweet`). -/
theorem claim2_exhaustion_503 (env : Env) (inst : List (List Char)) (q ty : List Char) :
    ((∀ b ∈ inst, Outcome.isSucc (outcome env q (buildPath ty q) b) = false) →
      get_tweets env inst q ty = Except.error 503) ∧
    (∀ r, get_tweets env inst q ty = Except.ok r →
      r.data ≠ [] ∧ ∃ b, b ∈ inst ∧ r.instanceUrl = b ∧
        outcome env q (buildPath ty q) b = Outcome.success r.data) := by
  constructor
  · have aux : ∀ inst2 : List (List Char),
        (∀ b ∈ inst2, Outcome.isSucc (outcome env q (buildPath ty q) b) = false) →
        get_tweets env inst2 q ty = Except.error 503 := by
      intro inst2
      induction inst2 with
      | nil => intro _; rfl
      | cons b rest ih =>
        intro hall
        rw [get_tweets_cons_not_succ (hall b (List.mem_cons_self b rest))]
        exact ih (fun m hm => hall m (List.mem_cons_of_mem b hm))
    exact aux inst
  · intro r hr
    unfold get_tweets at hr
    obtain ⟨b, hb, hinst, hsucc⟩ := runMirrors_ok hr
    exact ⟨outcome_success_ne_nil hsucc, b, hb, hinst, hsucc⟩

/-- Witness for C2: with every mirror failing at the transport level, the
request yields exactly the 503 error. -/
theorem claim2_witness :
    get_tweets envAllFail [mA, mB, mC] "u".toList "user".toList = Except.error 503 :=
  (claim2_exhaustion_503 envAllFail [mA, mB, mC] "u".toList "user".toList).1 (by decide)

/-- Counterexample to claim C7 as stated: the code accepts only HTTP
status exactly 200, not "every 2xx response".  Mirror A answers 201 — a
2xx status — with a body that parses to a non-empty, fully normalizable
feed, yet the controller does not hand it to parsing: it skips A and
returns mirror B's feed. -/
theorem claim7_counterexample :
    env201.http urlA = Resp.ok 201 "body1".toList ∧
    env201.parse "body1".toList = some [entryGood] ∧
    normalizeEntries "u".toList [entryGood] = some [tweetGood] ∧
    get_tweets env201 [mA, mB] "u".toList "user".toList
      = Except.ok { instanceUrl := mB, data := [tweetGood2] } :=
  ⟨rfl, rfl, by decide, rfl⟩

/-- Claim C7 as amended: for every single mirror attempt, a transport
error or a non-*200* HTTP status (rather than non-2xx: the code's test is
`status_code == 200`) is a failure that only eliminates that one mirror
(the request over the remaining mirrors is unchanged), and a *200*
response is handed to parsing and normalization, empty entries classified
`empty` and non-empty normalized entries classified `success`. -/
theorem claim7_outcome_mapping (env : Env) (q ty b : List Char) (rest : List (List Char)) :
    (Outcome.isSucc (outcome env q (buildPath ty q) b) = false →
      get_tweets env (b :: rest) q ty = get_tweets env rest q ty) ∧
    (env.http (rssUrl b (buildPath ty q)) = Resp.exc →
      outcome env q (buildPath ty q) b = Outcome.failure) ∧
    (∀ s body, env.http (rssUrl b (buildPath ty q)) = Resp.ok s body → s ≠ 200 →
      outcome env q (buildPath ty q) b = Outcome.failure) ∧
    (∀ body, env.http (rssUrl b (buildPath ty q)) = Resp.ok 200 body →
      parsedEntries env body = [] → outcome env q (buildPath ty q) b = Outcome.empty) ∧
    (∀ body e es ts, env.http (rssUrl b (buildPath ty q)) = Resp.ok 200 body →
      parsedEntries env body = e :: es → normalizeEntries q (e :: es) = some ts →
      outcome env q (buildPath ty q) b = Outcome.success ts) := by
  refine ⟨get_tweets_cons_not_succ, ?_, ?_, ?_, ?_⟩
  · intro h; unfold outcome; rw [h]
  · intro s body h hs; unfold outcome; rw [h]; simp [hs]
  · intro body h hp; unfold outcome; rw [h]; simp [hp]
  · intro body e es ts h hp hn; unfold outcome; rw [h]; simp [hp, hn]

/-- Witness for the amended C7: mirror A's 201 answer is classified a
failure and eliminates only mirror A. -/
theorem claim7_witness :
    get_tweets env201 [mA, mB] "u".toList "user".toList
      = get_tweets env201 [mB] "u".toList "user".toList ∧
    outcome env201 "u".toList (buildPath "user".toList "u".toList) mA = Outcome.failure :=
  ⟨(claim7_outcome_mapping env201 "u".toList "user".toList mA [mB]).1 (by decide),
   (claim7_outcome_mapping env201 "u".toList "user".toList mA [mB]).2.2.1
     201 "body1".toList (by decide) (by decide)⟩

/-- Claim C8 (spec-modelled parse step, see `parsedEntries`): a payload
from which the parse step can produce no entries structure at all never
contributes a feed item — the mirror that served it is eliminated and the
request continues over the remaining mirrors unchanged. -/
theorem claim8_invalid_payload (env : Env) (q ty b : List Char) (rest : List (List Char))
    (s : Nat) (body : List Char)
    (hhttp : env.http (rssUrl b (buildPath ty q)) = Resp.ok s body)
    (hparse : env.parse body = none) :
    Outcome.isSucc (outcome env q (buildPath ty q) b) = false ∧
    get_tweets env (b :: rest) q ty = get_tweets env rest q ty := by
  have hsucc : Outcome.isSucc (outcome env q (buildPath ty q) b) = false := by
    unfold outcome
    rw [hhttp]
    have hp : parsedEntries env body = [] := by unfold parsedEntries; rw [hparse]; rfl
    by_cases hs : s = 200
    · subst hs; simp [hp, Outcome.isSucc]
    · simp [hs, Outcome.isSucc]
  exact ⟨hsucc, get_tweets_cons_not_succ hsucc⟩

/-- Witness for C8: mirror A answers 200 with a structurally invalid
payload; the request proceeds exactly as if A were absent. -/
theorem claim8_witness :
    get_tweets envBadPayload [mA, mB] "u".toList "user".toList
      = get_tweets envBadPayload [mB] "u".toList "user".toList :=
  (claim8_invalid_payload envBadPayload "u".toList "user".toList mA [mB]
    200 "garbage".toList (by decide) rfl).2

/-- Claim C9: `get_tweets` is deterministic with no hidden state — its
result and its request trace are functions of the mirror responses alone.
Two runs against environments that answer the request URLs identically
(and parse bodies identically) produce identical results and traces;
in particular two runs against the same fixed environment agree. -/
theorem claim9_deterministic (env env2 : Env) (inst : List (List Char)) (q ty : List Char)
    (hhttp : ∀ b ∈ inst,
      env2.http (rssUrl b (buildPath ty q)) = env.http (rssUrl b (buildPath ty q)))
    (hparse : ∀ body, env2.parse body = env.parse body) :
    get_tweets env2 inst q ty = get_tweets env inst q ty ∧
    contacted env2 inst q ty = contacted env inst q ty := by
  have hout : ∀ b ∈ inst,
      outcome env2 q (buildPath ty q) b = outcome env q (buildPath ty q) b := by
    intro b hb
    unfold outcome
    rw [hhttp b hb]
    cases env.http (rssUrl b (buildPath ty q)) with
    | exc => rfl
    | ok s body => simp [parsedEntries, hparse body]
  have aux : ∀ inst2 : List (List Char),
      (∀ b ∈ inst2, outcome env2 q (buildPath ty q) b = outcome env q (buildPath ty q) b) →
      runMirrors env2 q (buildPath ty q) inst2 = runMirrors env q (buildPath ty q) inst2 ∧
      contactedRun env2 q (buildPath ty q) inst2
        = contactedRun env q (buildPath ty q) inst2 := by
    intro inst2
    induction inst2 with
    | nil => intro _; exact ⟨rfl, rfl⟩
    | cons b rest ih =>
      intro hall
      have hb := hall b (List.mem_cons_self b rest)
      have ihr := ih (fun m hm => hall m (List.mem_cons_of_mem b hm))
      constructor
      · simp only [runMirrors, hb]
        cases outcome env q (buildPath ty q) b <;> simp [ihr.1]
      · simp only [contactedRun, hb]
        cases outcome env q (buildPath ty q) b <;> simp [ihr.2]
  unfold get_tweets contacted
  exact aux inst hout

/-- Witness for C9: two environments agreeing on every URL the request
can touch (but differing on an unrelated URL) give the same result and
the same trace. -/
theorem claim9_witness :
    get_tweets envBGoodPrimed [mA, mB, mC] "u".toList "user".toList
      = get_tweets envBGood [mA, mB, mC] "u".toList "user".toList ∧
    contacted envBGoodPrimed [mA, mB, mC] "u".toList "user".toList
      = contacted envBGood [mA, mB, mC] "u".toList "user".toList :=
  claim9_deterministic envBGood envBGoodPrimed [mA, mB, mC] "u".toList "user".toList
    (by decide) (fun _ => rfl)

/-- Claim C10 (implicit): any exception inside one mirror's attempt —
including a normalization error from an entry missing a required field
(`id`, `description`, `link` or `published`; a missing `author` falls
back to the query) — only eliminates that mirror, and the entry point
never produces any error other than the final 503. -/
theorem claim10_exceptions_contained (env : Env) (inst : List (List Char)) (q ty : List Char) :
    (∀ code, get_tweets env inst q ty = Except.error code → code = 503) ∧
    (∀ b rest body e, inst = b :: rest →
      env.http (rssUrl b (buildPath ty q)) = Resp.ok 200 body →
      e ∈ parsedEntries env body →
      (e.id = none ∨ e.description = none ∨ e.link = none ∨ e.published = none) →
      get_tweets env inst q ty = get_tweets env rest q ty) := by
  constructor
  · have aux : ∀ inst2 : List (List Char), ∀ code,
        get_tweets env inst2 q ty = Except.error code → code = 503 := by
      intro inst2
      induction inst2 with
      | nil =>
        intro code h
        unfold get_tweets runMirrors at h
        exact (Except.error.inj h).symm
      | cons b rest ih =>
        intro code h
        cases ho : outcome env q (buildPath ty q) b with
        | success ts =>
          unfold get_tweets at h
          rw [runMirrors_cons_succ ho] at h
          exact absurd h (by simp)
        | failure =>
          rw [get_tweets_cons_not_succ (by simp [ho, Outcome.isSucc])] at h
          exact ih code h
        | empty =>
          rw [get_tweets_cons_not_succ (by simp [ho, Outcome.isSucc])] at h
          exact ih code h
    exact aux inst
  · intro b rest body e hinst hhttp hmem hbad
    subst hinst
    apply get_tweets_cons_not_succ
    have hnorm : normalizeEntries q (parsedEntries env body) = none :=
      normalizeEntries_none hmem (mkTweet_none_of_missing hbad)
    unfold outcome
    rw [hhttp]
    cases hp : parsedEntries env body with
    | nil => simp [hp, Outcome.isSucc]
    | cons e0 es =>
      rw [hp] at hnorm
      simp [hp, hnorm, Outcome.isSucc]

/-- Witness for C10: mirror A's feed has an entry whose `link` is
missing; the exception is contained and only mirror A is skipped. -/
theorem claim10_witness :
    get_tweets envBadEntry [mA, mB] "u".toList "user".toList
      = get_tweets envBadEntry [mB] "u".toList "user".toList :=
  (claim10_exceptions_contained envBadEntry [mA, mB] "u".toList "user".toList).2
    mA [mB] "bodyX".toList entryBadLink rfl (by decide) (by decide)
    (Or.inr (Or.inr (Or.inl rfl)))

/-- Counterexample to claim C6 as stated: the code runs
`q.replace('@', '')`, which removes every `@`, not only a leading one.
For `q = "a@b"` in User mode the claim predicts the request URL
`{mirror}/a@b/rss` (no leading `@` to strip); the code requests
`{mirror}/ab/rss`. -/
theorem claim6_counterexample :
    contacted envAllFail [mA] "a@b".toList "user".toList = ["https://a/ab/rss".toList] ∧
    "https://a/ab/rss".toList ≠ "https://a/a@b/rss".toList :=
  ⟨by decide, by decide⟩

/-- Claim C6 as amended: every URL the controller requests has the form
`{mirror}/{subject-with-every-@-removed}/rss` in User mode (all `@`
characters are removed, leading and interior alike), and
`{mirror}/search?q={subject}/rss` with the subject verbatim otherwise. -/
theorem claim6_url_shape (env : Env) (inst : List (List Char)) (q ty url : List Char)
    (hurl : url ∈ contacted env inst q ty) :
    ∃ b, b ∈ inst ∧
      ((ty = "user".toList ∧
          url = b ++ '/' :: ((q.filter fun c => c ≠ '@') ++ "/rss".toList)) ∨
       (ty ≠ "user".toList ∧
          url = b ++ '/' :: ("search?q=".toList ++ q ++ "/rss".toList))) := by
  have hshape : ∀ b : List Char,
      rssUrl b (buildPath ty q) = b ++ '/' :: (buildPath ty q ++ "/rss".toList) := by
    intro b; rfl
  have hb : ∀ b : List Char,
      (ty = "user".toList ∧
          rssUrl b (buildPath ty q)
            = b ++ '/' :: ((q.filter fun c => c ≠ '@') ++ "/rss".toList)) ∨
      (ty ≠ "user".toList ∧
          rssUrl b (buildPath ty q)
            = b ++ '/' :: ("search?q=".toList ++ q ++ "/rss".toList)) := by
    intro b
    by_cases hty : ty = "user".toList
    · exact Or.inl ⟨hty, by rw [hshape]; unfold buildPath; rw [if_pos hty]⟩
    · exact Or.inr ⟨hty, by rw [hshape]; unfold buildPath; rw [if_neg hty]⟩
  have aux : ∀ inst2 : List (List Char), url ∈ contacted env inst2 q ty →
      ∃ b, b ∈ inst2 ∧
        ((ty = "user".toList ∧
            url = b ++ '/' :: ((q.filter fun c => c ≠ '@') ++ "/rss".toList)) ∨
         (ty ≠ "user".toList ∧
            url = b ++ '/' :: ("search?q=".toList ++ q ++ "/rss".toList))) := by
    intro inst2
    induction inst2 with
    | nil => intro h; simp [contacted, contactedRun] at h
    | cons b rest ih =>
      intro h
      unfold contacted contactedRun at h
      rcases List.mem_cons.mp h with h1 | h2
      · subst h1
        exact ⟨b, List.mem_cons_self b rest, hb b⟩
      · cases ho : outcome env q (buildPath ty q) b with
        | success ts => rw [ho] at h2; simp at h2
        | failure =>
          rw [ho] at h2
          obtain ⟨b2, hb2, hx⟩ := ih h2
          exact ⟨b2, List.mem_cons_of_mem b hb2, hx⟩
        | empty =>
          rw [ho] at h2
          obtain ⟨b2, hb2, hx⟩ := ih h2
          exact ⟨b2, List.mem_cons_of_mem b hb2, hx⟩
  exact aux inst hurl

/-- Witness for the amended C6: the one URL contacted for
`q = "a@b"`, User mode, over mirror list `[mA]`. -/
theorem claim6_witness :
    ∃ b, b ∈ [mA] ∧
      (("user".toList = "user".toList ∧
          "https://a/ab/rss".toList
            = b ++ '/' :: (("a@b".toList.filter fun c => c ≠ '@') ++ "/rss".toList)) ∨
       ("user".toList ≠ "user".toList ∧
          "https://a/ab/rss".toList
            = b ++ '/' :: ("search?q=".toList ++ "a@b".toList ++ "/rss".toList))) :=
  claim6_url_shape envAllFail [mA] "a@b".toList "user".toList
    "https://a/ab/rss".toList (by decide)

/-! ## Lemmas for clean_html (claim C3) -/

theorem hasSpan_eq_false_of_no_gt {m : List Char} (h : '>' ∉ m) : hasSpan m = false := by
  induction m with
  | nil => rfl
  | cons c rest ih =>
    have hc : ('>' ∈ rest) → False := fun hx => h (List.mem_cons_of_mem c hx)
    have hcontains : rest.contains '>' = false := by
      by_cases hg : '>' ∈ rest
      · exact absurd hg hc
      · simpa using hg
    simp only [hasSpan, hcontains, Bool.and_false, Bool.false_or]
    exact ih (fun hx => hc hx)

theorem rmAux_no_span (l : List Char) (hl : '\n' ∉ l) :
    hasSpan (rmAux none l) = false ∧
    (∀ buf : List Char, '>' ∉ buf → hasSpan (rmAux (some buf) l) = false) := by
  induction l with
  | nil =>
    refine ⟨rfl, fun buf hbuf => ?_⟩
    have hgr : '>' ∉ buf.reverse := fun hx => hbuf (List.mem_reverse.mp hx)
    have hcontains : buf.reverse.contains '>' = false := by
      by_cases hg : '>' ∈ buf.reverse
      · exact absurd hg hgr
      · simpa using hg
    show hasSpan ('<' :: buf.reverse) = false
    simp only [hasSpan, hcontains, Bool.and_false, Bool.false_or]
    exact hasSpan_eq_false_of_no_gt hgr
  | cons c rest ih =>
    have hrest : '\n' ∉ rest := fun hx => hl (List.mem_cons_of_mem c hx)
    have hc : c ≠ '\n' := fun hx => hl (hx ▸ List.mem_cons_self c rest)
    obtain ⟨ih1, ih2⟩ := ih hrest
    constructor
    · by_cases hlt : c = '<'
      · simp [rmAux, hlt, ih2 [] (by simp)]
      · simp [rmAux, hlt, hasSpan, ih1]
    · intro buf hbuf
      by_cases hg : c = '>'
      · simp [rmAux, hg, ih1]
      · have hbuf2 : '>' ∉ c :: buf := by
          intro hx
          rcases List.mem_cons.mp hx with h1 | h2
          · exact hg h1.symm
          · exact hbuf h2
        simp [rmAux, hg, hc, ih2 (c :: buf) hbuf2]

theorem hasSpan_false_of_sublist {l1 l2 : List Char} (h : List.Sublist l1 l2)
    (h2 : hasSpan l2 = false) : hasSpan l1 = false := by
  induction h with
  | slnil => rfl
  | cons a h ih =>
    simp only [hasSpan, Bool.or_eq_false_iff] at h2
    exact ih h2.2
  | @cons₂ m1 m2 a h ih =>
    simp only [hasSpan, Bool.or_eq_false_iff, Bool.and_eq_false_iff] at h2 ⊢
    refine ⟨?_, ih h2.2⟩
    rcases h2.1 with h1 | h1
    · exact Or.inl h1
    · refine Or.inr ?_
      have hmem2 : '>' ∉ m2 := by
        intro hx
        have hx2 : m2.contains '>' = true := by simpa using hx
        rw [hx2] at h1
        simp at h1
      have hmem1 : '>' ∉ m1 := fun hx => hmem2 (h.subset hx)
      by_cases hg : '>' ∈ m1
      · exact absurd hg hmem1
      · simpa using hg

theorem pyStrip_sublist (l : List Char) : List.Sublist (pyStrip l) l := by
  have h1 : List.Sublist (l.dropWhile isSpace) l := (List.dropWhile_suffix isSpace).sublist
  have h2 : List.Sublist ((l.dropWhile isSpace).reverse.dropWhile isSpace)
      (l.dropWhile isSpace).reverse := (List.dropWhile_suffix isSpace).sublist
  have h3 := List.Sublist.reverse h2
  rw [List.reverse_reverse] at h3
  exact (h3.trans h1)

theorem noLeadWS_dropWhile (l : List Char) : noLeadWS (l.dropWhile isSpace) = true := by
  induction l with
  | nil => rfl
  | cons c rest ih =>
    by_cases hc : isSpace c
    · simpa [List.dropWhile, hc] using ih
    · simp [List.dropWhile, hc, noLeadWS]

theorem dropWhile_getLast? (l : List Char) :
    l.dropWhile isSpace = [] ∨ (l.dropWhile isSpace).getLast? = l.getLast? := by
  induction l with
  | nil => exact Or.inl rfl
  | cons c rest ih =>
    by_cases hc : isSpace c
    · cases rest with
      | nil => exact Or.inl (by simp [List.dropWhile, hc])
      | cons r rs =>
        rcases ih with h1 | h2
        · rw [List.dropWhile_cons, if_pos hc]
          exact Or.inl h1
        · rw [List.dropWhile_cons, if_pos hc, List.getLast?_cons_cons]
          exact Or.inr h2
    · rw [List.dropWhile_cons, if_neg hc]
      exact Or.inr rfl

theorem noLeadWS_iff_head? {z : List Char} :
    noLeadWS z = true ↔ ∀ c, z.head? = some c → isSpace c = false := by
  cases z with
  | nil => simp [noLeadWS]
  | cons c rest => simp [noLeadWS]

theorem clean_html_no_span {l : List Char} (hnl : '\n' ∉ l) :
    hasSpan (clean_html l) = false :=
  hasSpan_false_of_sublist (pyStrip_sublist (removeTags l)) (rmAux_no_span l hnl).1

theorem clean_html_noLead (l : List Char) : noLeadWS (clean_html l) = true := by
  unfold clean_html pyStrip
  refine noLeadWS_iff_head?.mpr ?_
  intro c hc
  rw [List.head?_reverse] at hc
  rcases dropWhile_getLast? ((removeTags l).dropWhile isSpace).reverse with h1 | h2
  · rw [h1] at hc
    simp at hc
  · rw [h2, List.getLast?_reverse] at hc
    exact (noLeadWS_iff_head?.mp (noLeadWS_dropWhile (removeTags l))) c hc

theorem clean_html_noTrail (l : List Char) : noLeadWS (clean_html l).reverse = true := by
  unfold clean_html pyStrip
  rw [List.reverse_reverse]
  exact noLeadWS_dropWhile _

/-- Counterexample to claim C3 as stated: Python's `.` does not match a
newline, so `re.sub('<.*?>', '', s)` does not remove a span containing a
newline.  On the three-character input `<`, newline, `>` the function
returns its input unchanged, which contains a substring starting with `<`
and later closed by `>`. -/
theorem claim3_counterexample :
    clean_html ('<' :: '\n' :: '>' :: []) = ('<' :: '\n' :: '>' :: []) ∧
    hasSpan (clean_html ('<' :: '\n' :: '>' :: [])) = true :=
  ⟨by decide, by decide⟩

/-- Claim C3 as amended: for every input string the output of
`clean_html` has no leading or trailing whitespace and the empty input
yields the empty output (and the function is total, hence never fails);
the no-angle-bracket-span guarantee holds for every input that contains
no newline character (the regex `.` cannot cross a newline, so a span
with an interior newline survives — see the counterexample). -/
theorem claim3_strip_trim (l : List Char) :
    ('\n' ∉ l → hasSpan (clean_html l) = false) ∧
    noLeadWS (clean_html l) = true ∧
    noLeadWS (clean_html l).reverse = true ∧
    clean_html [] = [] :=
  ⟨fun hnl => clean_html_no_span hnl, clean_html_noLead l, clean_html_noTrail l, rfl⟩

/-- Witness for the amended C3 at a concrete newline-free input with
markup and surrounding whitespace. -/
theorem claim3_witness :
    ('\n' ∉ "  <b>hi</b> x ".toList) ∧
    hasSpan (clean_html "  <b>hi</b> x ".toList) = false ∧
    noLeadWS (clean_html "  <b>hi</b> x ".toList) = true ∧
    noLeadWS (clean_html "  <b>hi</b> x ".toList).reverse = true :=
  ⟨by decide, (claim3_strip_trim "  <b>hi</b> x ".toList).1 (by decide),
   (claim3_strip_trim "  <b>hi</b> x ".toList).2.1,
   (claim3_strip_trim "  <b>hi</b> x ".toList).2.2.1⟩

/-! ## Lemmas for extract_image (claim C4) -/

theorem readValue_append {v : List Char} (hq : '"' ∉ v) (hg : '>' ∉ v)
    (c : List Char) : readValue (v ++ '"' :: c) = some v := by
  induction v with
  | nil => simp [readValue]
  | cons x xs ih =>
    have hx1 : x ≠ '"' := fun h => hq (h ▸ List.mem_cons_self x xs)
    have hx2 : x ≠ '>' := fun h => hg (h ▸ List.mem_cons_self x xs)
    have ihr := ih (fun h => hq (List.mem_cons_of_mem x h))
      (fun h => hg (List.mem_cons_of_mem x h))
    simp [readValue, hx1, hx2, ihr]

theorem scanRegion_no_candidate {v : List Char} (hq : '"' ∉ v)
    {c : List Char} (hc : c = [] ∨ ∃ c2, c = '>' :: c2) :
    ∀ w best, w <:+ v → scanRegion (w ++ '"' :: c) false best = best := by
  intro w
  induction w with
  | nil =>
    intro best _
    rcases hc with h | ⟨c2, h⟩ <;> subst h <;>
      simp [scanRegion, srcPat, List.isPrefixOf]
  | cons x w' ih =>
    intro best hsuf
    have hw' : w' <:+ v := (List.suffix_cons x w').trans hsuf
    by_cases hx : x = '>'
    · subst hx; simp [scanRegion]
    · have hbest : (if !false && srcPat.isPrefixOf (x :: (w' ++ '"' :: c)) then
          match readValue (List.drop 5 (x :: (w' ++ '"' :: c))) with
          | some g => if g = [] then best else some g
          | none => best
        else best) = best := by
        simp only [Bool.not_false, Bool.true_and]
        by_cases hpre : srcPat.isPrefixOf (x :: (w' ++ '"' :: c)) = true
        · rw [if_pos hpre]
          rcases w' with _ | ⟨b1, _ | ⟨b2, _ | ⟨b3, _ | ⟨b4, w2⟩⟩⟩⟩
          · simp [srcPat, List.isPrefixOf] at hpre
          · simp [srcPat, List.isPrefixOf] at hpre
          · simp [srcPat, List.isPrefixOf] at hpre
          · have hdrop : List.drop 5 (x :: ([b1, b2, b3] ++ '"' :: c)) = c := rfl
            rw [hdrop]
            rcases hc with h | ⟨c2, h⟩ <;> subst h <;> simp [readValue]
          · exfalso
            have hb4 : b4 ∈ v := hw'.subset (by simp)
            simp [srcPat, List.isPrefixOf] at hpre
            exact hq (hpre.2.2.2.2 ▸ hb4)
        · rw [if_neg hpre]
      show scanRegion (x :: (w' ++ '"' :: c)) false best = best
      calc scanRegion (x :: (w' ++ '"' :: c)) false best
          = scanRegion (w' ++ '"' :: c) false
              (if !false && srcPat.isPrefixOf (x :: (w' ++ '"' :: c)) then
                match readValue (List.drop 5 (x :: (w' ++ '"' :: c))) with
                | some g => if g = [] then best else some g
                | none => best
              else best) := by
            simp only [scanRegion]
            rw [if_neg hx]
        _ = scanRegion (w' ++ '"' :: c) false best := by rw [hbest]
        _ = best := ih best hw'

theorem imgSearch_snippet {v : List Char} (hv : v ≠ []) (hq : '"' ∉ v) (hg : '>' ∉ v)
    {c : List Char} (hc : c = [] ∨ ∃ c2, c = '>' :: c2) :
    imgSearch ('<' :: 'i' :: 'm' :: 'g' :: ' ' :: 's' :: 'r' :: 'c' :: '=' :: '"'
      :: (v ++ '"' :: c)) = some v := by
  have hrv : readValue (v ++ '"' :: c) = some v := readValue_append hq hg c
  have htail : scanRegion (v ++ '"' :: c) false (some v) = some v :=
    scanRegion_no_candidate hq hc v (some v) (List.suffix_refl v)
  simp [imgSearch, scanRegion, srcPat, List.isPrefixOf, hrv, hv, htail]

theorem imgSearch_skip_plain_text {a : List Char} (s : List Char) (ha : ∀ x ∈ a, x ≠ '<') :
    imgSearch (a ++ s) = imgSearch s := by
  induction a with
  | nil => rfl
  | cons x a2 ih =>
    have hx : x ≠ '<' := ha x (List.mem_cons_self x a2)
    have hpre : (('<' :: 'i' :: 'm' :: 'g' :: []).isPrefixOf (x :: (a2 ++ s))) = false := by
      simp [List.isPrefixOf]
      intro h
      exact absurd h.symm hx
    simp [imgSearch, hpre, ih (fun y hy => ha y (List.mem_cons_of_mem x hy))]

theorem imgSearch_none_of_no_imgtag {d : List Char}
    (h : ¬ (('<' :: 'i' :: 'm' :: 'g' :: []) <:+: d)) : imgSearch d = none := by
  induction d with
  | nil => rfl
  | cons x rest ih =>
    have hpre : (('<' :: 'i' :: 'm' :: 'g' :: []).isPrefixOf (x :: rest)) = false := by
      rw [Bool.eq_false_iff]
      intro hb
      exact h (List.isPrefixOf_iff_prefix.mp hb).isInfix
    have hrest : ¬ (('<' :: 'i' :: 'm' :: 'g' :: []) <:+: rest) :=
      fun hi => h (hi.trans (List.suffix_cons x rest).isInfix)
    simp [imgSearch, hpre, ih hrest]

/-- Claim C4: `extract_image` returns the `src` value of the first image
tag occurrence ("image tag occurrence" meaning an occurrence of `<img`,
as matched by the source regex), with `https:` prepended when the value
is protocol-relative; it returns `none` when no image tag exists; with
two or more image tags only the first one's `src` is returned.  The first
conjunct covers every description of the shape
`{text without <}<img {attrs}src="{value}"{rest of tag and document}`
(the value non-empty and quote/`>`-free, the tag closed right after it);
taking `c` to contain a second full image tag instantiates the
two-tags clause, and a `//`-value instantiates the protocol-relative
clause (see the witness).  The second conjunct is the no-image-tag case;
the last two are the specification's own concrete vectors. -/
theorem claim4_extract_first_src :
    (∀ a v c : List Char, (∀ x ∈ a, x ≠ '<') → v ≠ [] → '"' ∉ v → '>' ∉ v →
      (c = [] ∨ ∃ c2, c = '>' :: c2) →
      extract_image (a ++ ('<' :: 'i' :: 'm' :: 'g' :: ' ' :: 's' :: 'r' :: 'c' :: '='
        :: '"' :: (v ++ '"' :: c))) = some (addScheme v)) ∧
    (∀ d : List Char, ¬ (('<' :: 'i' :: 'm' :: 'g' :: []) <:+: d) →
      extract_image d = none) ∧
    extract_image "<img src=\"//example.com/a.jpg\">".toList
      = some "https://example.com/a.jpg".toList ∧
    extract_image "<img src=\"http://e/1\"><img src=\"http://e/2\">".toList
      = some "http://e/1".toList := by
  refine ⟨?_, ?_, by decide, by decide⟩
  · intro a v c ha hv hq hg hc
    unfold extract_image
    rw [imgSearch_skip_plain_text _ ha, imgSearch_snippet hv hq hg hc]
    rfl
  · intro d hd
    unfold extract_image
    rw [imgSearch_none_of_no_imgtag hd]
    rfl

/-- Witness for C4: a description with leading text, a protocol-relative
first image and a second image tag after it; the result is the first
image's URL with `https:` prepended. -/
theorem claim4_witness :
    extract_image ("Photo: ".toList ++ ('<' :: 'i' :: 'm' :: 'g' :: ' ' :: 's' :: 'r'
        :: 'c' :: '=' :: '"' :: ("//e/a.jpg".toList ++ '"' :: ">x<img src=\"//e/b.jpg\">".toList)))
      = some (addScheme "//e/a.jpg".toList) ∧
    addScheme "//e/a.jpg".toList = "https://e/a.jpg".toList ∧
    ¬ (('<' :: 'i' :: 'm' :: 'g' :: []) <:+: "plain text".toList) ∧
    extract_image "plain text".toList = none :=
  ⟨claim4_extract_first_src.1 "Photo: ".toList "//e/a.jpg".toList
      ">x<img src=\"//e/b.jpg\">".toList (by decide) (by decide) (by decide) (by decide)
      (Or.inr ⟨"x<img src=\"//e/b.jpg\">".toList, rfl⟩),
   by decide, by decide,
   claim4_extract_first_src.2.1 "plain text".toList (by decide)⟩

/-! ## Lemmas and claim theorems for the item invariant (claim C5) -/

theorem addScheme_not_protorel (u : List Char) :
    (('/' :: '/' :: []).isPrefixOf (addScheme u)) = false := by
  unfold addScheme
  by_cases hp : ('/' :: '/' :: []).isPrefixOf u = true
  · rw [if_pos hp]
    simp [List.isPrefixOf]
  · rw [if_neg hp]
    exact Bool.eq_false_iff.mpr hp

theorem extract_image_not_protorel {d u : List Char} (h : extract_image d = some u) :
    (('/' :: '/' :: []).isPrefixOf u) = false := by
  unfold extract_image at h
  cases hi : imgSearch d with
  | none => rw [hi] at h; simp at h
  | some g =>
    rw [hi] at h
    simp at h
    rw [← h]
    exact addScheme_not_protorel g

theorem outcome_success_normalize {env : Env} {q path b : List Char} {ts : List Tweet}
    (h : outcome env q path b = Outcome.success ts) :
    ∃ es, normalizeEntries q es = some ts := by
  unfold outcome at h
  split at h
  · simp at h
  · split at h
    · split at h
      · simp at h
      · split at h
        · rename_i hn
          cases h
          exact ⟨_, hn⟩
        · simp at h
    · simp at h

/-- Counterexample to claim C5 as stated: a description whose image `src`
is a relative path yields an `image` field with no scheme at all — the
code prepends `https:` only to protocol-relative (`//`) values.  Mirror A
serves an entry with `<img src="pic.jpg">`; the returned item's image is
`pic.jpg`, which contains no `:` and hence no scheme. -/
theorem claim5_counterexample :
    get_tweets envRelImg [mA] "u".toList "user".toList
      = Except.ok { instanceUrl := mA, data := [tweetRel] } ∧
    tweetRel.image = some "pic.jpg".toList ∧
    ("pic.jpg".toList.contains ':') = false :=
  ⟨rfl, rfl, by decide⟩

/-- Claim C5 as amended: every item of a successfully returned result has
`content = clean_html d` and `image = extract_image d` for its entry's
description `d`; the content is trimmed on both ends and — whenever the
description has no newline — free of angle-bracket spans; and the image,
whenever present, is never protocol-relative (never starts with `//`): a
`//` source has `https:` prepended, but a relative-path source is passed
through without a scheme (see the counterexample). -/
theorem claim5_item_invariant (env : Env) (inst : List (List Char)) (q ty : List Char)
    (r : TweetResponse) (hr : get_tweets env inst q ty = Except.ok r) :
    ∀ t ∈ r.data, ∃ d,
      t.content = clean_html d ∧ t.image = extract_image d ∧
      noLeadWS t.content = true ∧ noLeadWS t.content.reverse = true ∧
      ('\n' ∉ d → hasSpan t.content = false) ∧
      (∀ u, t.image = some u → (('/' :: '/' :: []).isPrefixOf u) = false) := by
  intro t ht
  unfold get_tweets at hr
  obtain ⟨b, hb, hinst, hsucc⟩ := runMirrors_ok hr
  obtain ⟨es, hes⟩ := outcome_success_normalize hsucc
  obtain ⟨e, hee, hmk⟩ := normalizeEntries_mem hes ht
  obtain ⟨d, hd, hcon, himg⟩ := mkTweet_content_image hmk
  refine ⟨d, hcon, himg, ?_, ?_, ?_, ?_⟩
  · rw [hcon]; exact clean_html_noLead d
  · rw [hcon]; exact clean_html_noTrail d
  · intro hnl; rw [hcon]; exact clean_html_no_span hnl
  · intro u hu
    rw [himg] at hu
    exact extract_image_not_protorel hu

/-- Witness for the amended C5 at the concrete successful run of
`envBGood`, instantiated at its single returned item. -/
theorem claim5_witness :
    ∃ d, tweetGood.content = clean_html d ∧ tweetGood.image = extract_image d ∧
      noLeadWS tweetGood.content = true ∧ noLeadWS tweetGood.content.reverse = true ∧
      ('\n' ∉ d → hasSpan tweetGood.content = false) ∧
      (∀ u, tweetGood.image = some u → (('/' :: '/' :: []).isPrefixOf u) = false) :=
  claim5_item_invariant envBGood [mA, mB, mC] "u".toList "user".toList
    { instanceUrl := mB, data := [tweetGood] } rfl tweetGood (by decide)
